import Mathlib

/-!
# BreadAssassin: verified model of the message-snipe cache

A shallow embedding of the BreadAssassin module (`src/__init__.py` and
`src/response_handlers.py`): an in-memory, time-bounded cache of deleted or
edited message versions, with periodic pruning and retrieval by recency index.

Times are modelled as integers (seconds); the Python dict `message_cache` is
modelled as an insertion-ordered association list; Python exceptions are
modelled with `Option`/`Except` (`none`/`.error` = the exception propagates).
-/

namespace BreadAssassin

/-- How a tracked message changed: through an edit or a deletion
(`ChangeType` in `types.py`). -/
inductive ChangeType where
  | EDIT
  | DELETE
deriving DecidableEq, Repr

/-- The fields of a Discord message the module reads: its id, the channel it
was sent in, its author, and the webhook id when it was sent by a webhook. -/
structure Message where
  id : Nat
  channel : Nat
  author : Nat
  webhookId : Option Nat
deriving DecidableEq, Repr

/-- One recorded version of a message (`MessageState`): the message object,
how it changed, and when the change was observed. -/
structure MessageState where
  message : Message
  changed_through : ChangeType
  changed_at : Int
deriving DecidableEq, Repr

instance : Inhabited MessageState :=
  ⟨⟨⟨0, 0, 0, none⟩, ChangeType.DELETE, 0⟩⟩

abbrev MessageID := Nat

/-- The message cache `message_cache`: an insertion-ordered mapping from
message id to that message's history (list of recorded states). -/
abbrev Store := List (MessageID × List MessageState)

/-- Model of `history[-1]`: the latest recorded state of a history. The store invariant
keeps every history non-empty, so the default is never reached for stored
histories. -/
def lastState (history : List MessageState) : MessageState :=
  history.getLastD default

/-- Dictionary lookup `message_cache.get(id)` (first match in insertion
order; dict keys are unique). -/
def lookupStore (store : Store) (id : MessageID) : Option (List MessageState) :=
  (store.find? (fun e => e.1 == id)).map (fun e => e.2)

/-- Model of `is_state_expired(state, lenience)`: true iff
`state.changed_at + max_age + lenience < now`. The configured `max_age` and
the clock reading `now` are passed explicitly. -/
def is_state_expired (maxAge now : Int) (state : MessageState) (lenience : Int) : Bool :=
  decide (state.changed_at + maxAge + lenience < now)

/-- The comparison used by `channel_states.sort(key=...changed_at)`:
ascending by the latest state's `changed_at`. -/
def sortKeyLe (a b : List MessageState) : Bool :=
  decide ((lastState a).changed_at ≤ (lastState b).changed_at)

/-- Model of `get_tracked_states_in_channel(channel)`: keep the histories whose latest
state is in `channel` and not expired (zero leniency), then stable-sort them
ascending by the latest state's `changed_at`. -/
def get_tracked_states_in_channel (maxAge now : Int) (channel : Nat) (store : Store) :
    List (List MessageState) :=
  let channel_states := (store.map (fun e => e.2)).filter
    (fun h => (lastState h).message.channel == channel
      && !is_state_expired maxAge now (lastState h) 0)
  channel_states.mergeSort sortKeyLe

/-- Python list indexing `l[i]`: a non-negative index counts from the front,
a negative index counts from the back (`l[-k]` is `l[len - k]`); an index out
of range raises `IndexError`, modelled as `none`. -/
def pyIndex {α : Type} (l : List α) (i : Int) : Option α :=
  if i < 0 then
    if (l.length : Int) + i < 0 then none
    else l.get? ((l.length : Int) + i).toNat
  else l.get? i.toNat

/-- The selection step of the `snipe` command, including its preceding
`if not message_states:` guard: with an empty match list the command replies
"No messages to snipe." without selecting anything (modelled `none`);
otherwise it returns
`message_states[-max(1, min(index, len(message_states)))]`. -/
def snipe_select (l : List (List MessageState)) (index : Int) :
    Option (List MessageState) :=
  if l.isEmpty then none
  else pyIndex l (-(max 1 (min index (l.length : Int))))

/-- Python slicing from the front, `s[:k]`: a non-negative `k` keeps the
first `k` characters, a negative `k` drops the last `-k` characters. -/
def pyTake (s : List Char) (k : Int) : List Char :=
  if k < 0 then s.take ((s.length : Int) + k).toNat else s.take k.toNat

/-- Model of `strip_with_dots(string, max_length)`: return the string unchanged when
it fits in `max_length` characters, otherwise `string[:max_length - 3]`
followed by `"..."`. Strings are modelled as character lists. -/
def strip_with_dots (s : List Char) (max_length : Int) : List Char :=
  if (s.length : Int) ≤ max_length then s
  else pyTake s (max_length - 3) ++ ['.', '.', '.']

/-- The configured snipe response type (`ResponseType` enum). -/
inductive ResponseType where
  | EMBED
  | WEBHOOK
deriving DecidableEq, Repr

/-- The name marking the webhook the module creates for spoofed responses. -/
def ACCEPTED_WEBHOOK_NAME : String := "breadcord_bread_assassin_snipe_hook"

/-- Model of `can_snipe_message(message)`: when the `allow_self_snipe` setting is set,
reject the bot's own messages, and under webhook response mode also reject
messages sent by the accepted snipe webhook (the webhook's name is looked up
with `bot.fetch_webhook`, modelled by `fetchWebhookName`). -/
def can_snipe_message (allow_self_snipe : Bool) (response_type : ResponseType)
    (botUser : Nat) (fetchWebhookName : Nat → String) (message : Message) : Bool :=
  if allow_self_snipe then
    if message.author == botUser then false
    else
      match message.webhookId with
      | some wid =>
        if response_type == ResponseType.WEBHOOK then
          if fetchWebhookName wid == ACCEPTED_WEBHOOK_NAME then false else true
        else true
      | none => true
  else true

/-- Model of `use_handler(ctx, message_states)`: dispatch on the configured response
type; in webhook mode any exception raised by the webhook handler is logged
and the embed handler's result is returned instead. Handler outcomes are
passed as `Except` values (`.error` = the handler raised). -/
def use_handler {ε α : Type} (response_type : ResponseType)
    (embedResult webhookResult : Except ε α) : Except ε α :=
  match response_type with
  | ResponseType.EMBED => embedResult
  | ResponseType.WEBHOOK =>
    match webhookResult with
    | Except.ok r => Except.ok r
    | Except.error _ => embedResult

/-- Model of `message_cache.pop(id)` without a default: remove the entry when the id
is present, raise `KeyError` (modelled `none`) when it is absent. -/
def popStore (store : Store) (id : MessageID) : Option Store :=
  if store.any (fun e => e.1 == id) then
    some (store.eraseP (fun e => e.1 == id))
  else none

/-- The snipe command's removal path,
`with contextlib.suppress(KeyError): message_cache.pop(...)`: a raised
`KeyError` is swallowed, leaving the store unchanged. -/
def snipeRemove (store : Store) (id : MessageID) : Store :=
  (popStore store id).getD store

/-- One pruner scan (the body of `prune_message_cache`): iterate over a
snapshot (`message_cache.copy()`); for each entry whose latest state
(`message_states[-1]`) is expired at zero leniency, `pop` the id from the
live store. `none` models an uncaught exception — `IndexError` from
`message_states[-1]` on an empty history, or `KeyError` from `pop` on an
absent id — which aborts the scan. -/
def pruneScan (maxAge now : Int) :
    List (MessageID × List MessageState) → Store → Option Store
  | [], store => some store
  | (id, states) :: rest, store =>
    match states.getLast? with
    | none => none
    | some latest =>
      if is_state_expired maxAge now latest 0 then
        match popStore store id with
        | none => none
        | some store2 => pruneScan maxAge now rest store2
      else pruneScan maxAge now rest store

/-- One tick of `prune_message_cache`: scan a copy of the cache, popping
every id whose latest state is expired. -/
def prune_message_cache (maxAge now : Int) (store : Store) : Option Store :=
  pruneScan maxAge now store store

/-- The store invariant the module maintains: dict keys are unique and every
stored history is non-empty. -/
def StoreWF (store : Store) : Prop :=
  (store.map (fun e => e.1)).Nodup ∧ ∀ e ∈ store, e.2 ≠ []

/-- Model of `message_cache[id].append(state)` with `defaultdict(list)` semantics:
append to the id's history, creating the entry (at the end, in dict
insertion order) when absent. -/
def record : Store → MessageID → MessageState → Store
  | [], id, s => [(id, [s])]
  | (k, h) :: rest, id, s =>
    if k == id then (k, h ++ [s]) :: rest else (k, h) :: record rest id s

/-- An edit or deletion notification: the affected message and the clock
reading at which the handler observes it. -/
inductive MsgEvent where
  | deleteEv (message : Message) (now : Int)
  | editEv (message : Message) (now : Int)
deriving DecidableEq, Repr

/-- The message an event concerns. -/
def eventMessage : MsgEvent → Message
  | MsgEvent.deleteEv m _ => m
  | MsgEvent.editEv m _ => m

/-- The `MessageState` the handler constructs for an event. -/
def eventState : MsgEvent → MessageState
  | MsgEvent.deleteEv m now => ⟨m, ChangeType.DELETE, now⟩
  | MsgEvent.editEv m now => ⟨m, ChangeType.EDIT, now⟩

/-- Model of `on_message_delete` and `on_message_edit`: when the corresponding sniping
setting is off, or `can_snipe_message` rejects the message, do nothing;
otherwise append the new state to the message's cache entry. -/
def applyEvent (allow_deletion allow_edit allow_self : Bool)
    (response_type : ResponseType) (botUser : Nat)
    (fetchWebhookName : Nat → String) (store : Store) (ev : MsgEvent) : Store :=
  match ev with
  | MsgEvent.deleteEv m now =>
    if !allow_deletion then store
    else if !can_snipe_message allow_self response_type botUser fetchWebhookName m
    then store
    else record store m.id ⟨m, ChangeType.DELETE, now⟩
  | MsgEvent.editEv m now =>
    if !allow_edit then store
    else if !can_snipe_message allow_self response_type botUser fetchWebhookName m
    then store
    else record store m.id ⟨m, ChangeType.EDIT, now⟩

/-- How a run of the `snipe` command ends. -/
inductive SnipeOutcome where
  | disabledReply
  | notInGuild
  | noMessages
  | indexError
  | renderFailed
  | success
deriving DecidableEq, Repr

/-- The `snipe` command: check the sniping settings and guild context, query
the channel, select by recency index, hand the selection to the response
handler (`use_handler` with the reply delivery, modelled by `render`), and
only then pop the sniped message's id from the cache with `KeyError`
suppressed. Returns the cache after the command together with how the
command ended; when the handler raises, the exception propagates before any
cache mutation (`renderFailed`). -/
def snipe (allow_edit allow_deletion inGuild : Bool)
    (maxAge now : Int) (channel : Nat) (store : Store) (index : Int)
    (render : List MessageState → Except Unit Unit) : Store × SnipeOutcome :=
  if !allow_edit && !allow_deletion then (store, SnipeOutcome.disabledReply)
  else if !inGuild then (store, SnipeOutcome.notInGuild)
  else
    let message_states := get_tracked_states_in_channel maxAge now channel store
    if message_states.isEmpty then (store, SnipeOutcome.noMessages)
    else
      match pyIndex message_states
          (-(max 1 (min index (message_states.length : Int)))) with
      | none => (store, SnipeOutcome.indexError)
      | some sniped =>
        match render sniped with
        | Except.error _ => (store, SnipeOutcome.renderFailed)
        | Except.ok _ =>
          (snipeRemove store (lastState sniped).message.id, SnipeOutcome.success)

/-- Sample message used for concrete evaluations. -/
def sampleMessage (mid channel : Nat) : Message :=
  ⟨mid, channel, 7, none⟩

/-- Sample recorded state used for concrete evaluations. -/
def sampleState (mid channel : Nat) (t : Int) : MessageState :=
  ⟨sampleMessage mid channel, ChangeType.DELETE, t⟩

end BreadAssassin

namespace BreadAssassin

/-- Helper: popping an id present exactly once removes that entry and keeps
everything else, provided no earlier entry carries the id. -/
theorem popStore_middle (pre rest : Store) (id : MessageID)
    (states : List MessageState) (hpre : ∀ e ∈ pre, e.1 ≠ id) :
    popStore (pre ++ (id, states) :: rest) id = some (pre ++ rest) := by
  unfold popStore
  rw [if_pos]
  · congr 1
    rw [List.eraseP_append_right _ (by intro b hb; simpa using hpre b hb)]
    simp
  · simp only [List.any_eq_true]
    exact ⟨(id, states), by simp, by simp⟩

/-- Helper: a pruner scan over a snapshot, against a live store made of an
already-scanned kept part followed by the snapshot, succeeds and keeps
exactly the unexpired entries. -/
theorem pruneScan_eq_filter (maxAge now : Int)
    (snapshot : List (MessageID × List MessageState)) :
    ∀ (pre : Store),
      ((pre ++ snapshot).map (fun e => e.1)).Nodup →
      (∀ e ∈ snapshot, e.2 ≠ []) →
      pruneScan maxAge now snapshot (pre ++ snapshot)
        = some (pre ++ snapshot.filter
            (fun e => !is_state_expired maxAge now (lastState e.2) 0)) := by
  induction snapshot with
  | nil =>
    intro pre _ _
    simp [pruneScan]
  | cons head rest ih =>
    intro pre hnd hne
    obtain ⟨id, states⟩ := head
    have hstates : states ≠ [] := hne (id, states) (by simp)
    have hlast : states.getLast? = some (lastState states) := by
      rw [lastState, List.getLastD_eq_getLast?]
      cases h : states.getLast? with
      | none => exact absurd (List.getLast?_eq_none_iff.mp h) hstates
      | some x => rfl
    have hpre : ∀ e ∈ pre, e.1 ≠ id := by
      intro e he
      have : id ∉ pre.map (fun e => e.1) := by
        have := hnd
        simp only [List.map_append, List.nodup_append] at this
        intro hmem
        exact this.2.2 hmem (by simp)
      intro hcontr
      exact this (by exact List.mem_map.mpr ⟨e, he, hcontr⟩)
    by_cases hexp : is_state_expired maxAge now (lastState states) 0 = true
    · have hpop := popStore_middle pre rest id states hpre
      have hnd2 : ((pre ++ rest).map (fun e => e.1)).Nodup := by
        refine List.Nodup.sublist ?_ hnd
        refine List.Sublist.map _ ?_
        exact List.Sublist.append_left (List.sublist_cons_self _ _) pre
      have hne2 : ∀ e ∈ rest, e.2 ≠ [] := fun e he => hne e (by simp [he])
      simp only [pruneScan, hlast, hexp, if_true, hpop]
      rw [ih pre hnd2 hne2]
      simp [hexp]
    · have hstep : pre ++ (id, states) :: rest = (pre ++ [(id, states)]) ++ rest := by
        simp
      have hnd2 : (((pre ++ [(id, states)]) ++ rest).map (fun e => e.1)).Nodup := by
        rw [← hstep]; exact hnd
      have hne2 : ∀ e ∈ rest, e.2 ≠ [] := fun e he => hne e (by simp [he])
      simp only [pruneScan, hlast, hexp, if_false]
      rw [hstep, ih (pre ++ [(id, states)]) hnd2 hne2]
      simp [hexp]

/-- Helper: with unique keys, erasing the entry for an id leaves no entry
with that id behind. -/
theorem any_eraseP_eq_false (store : Store) (id : MessageID)
    (hnd : (store.map (fun e => e.1)).Nodup) :
    (store.eraseP (fun e => e.1 == id)).any (fun e => e.1 == id) = false := by
  induction store with
  | nil => simp
  | cons head rest ih =>
    obtain ⟨k, h⟩ := head
    simp only [List.map_cons, List.nodup_cons] at hnd
    by_cases hk : k = id
    · subst hk
      rw [List.eraseP_cons_of_pos (by simp)]
      simp only [List.any_eq_false]
      intro e he
      simp only [beq_iff_eq]
      intro hcontr
      exact hnd.1 (List.mem_map.mpr ⟨e, he, hcontr⟩)
    · rw [List.eraseP_cons_of_neg (by simp [hk])]
      simp [hk, ih hnd.2]

/-- C5: the expiry check returns true exactly when
`changed_at + maxAge + lenience < now`; determinism is immediate since it is
a function of the state, the configuration and the clock reading. -/
theorem is_state_expired_iff (maxAge now : Int) (s : MessageState) (lenience : Int) :
    is_state_expired maxAge now s lenience = true ↔
      s.changed_at + maxAge + lenience < now := by
  simp [is_state_expired]

/-- C1: the channel query returns exactly (as a multiset, i.e. up to
permutation) the stored histories whose latest state is in the channel and
not expired at zero leniency, and the returned list is sorted ascending by
the latest state's `changed_at`, so the most recently changed eligible
history is last. -/
theorem get_tracked_states_in_channel_correct (maxAge now : Int) (channel : Nat)
    (store : Store) :
    (get_tracked_states_in_channel maxAge now channel store).Perm
      ((store.map (fun e => e.2)).filter
        (fun h => (lastState h).message.channel == channel
          && !is_state_expired maxAge now (lastState h) 0))
    ∧ (get_tracked_states_in_channel maxAge now channel store).Pairwise
        (fun a b => (lastState a).changed_at ≤ (lastState b).changed_at) := by
  constructor
  · exact List.mergeSort_perm _ _
  · have htrans : ∀ (a b c : List MessageState),
        sortKeyLe a b → sortKeyLe b c → sortKeyLe a c := by
      intro a b c hab hbc
      simp only [sortKeyLe, decide_eq_true_eq] at *
      omega
    have htotal : ∀ (a b : List MessageState),
        sortKeyLe a b || sortKeyLe b a := by
      intro a b
      simp only [sortKeyLe]
      by_cases h : (lastState a).changed_at ≤ (lastState b).changed_at
      · simp [h]
      · simp [h]
        omega
    have h := @List.sorted_mergeSort _ sortKeyLe htrans htotal
      ((store.map (fun e => e.2)).filter
        (fun h => (lastState h).message.channel == channel
          && !is_state_expired maxAge now (lastState h) 0))
    refine h.imp ?_
    intro a b hab
    simpa [sortKeyLe] using hab

/-- C2: on an empty match list the selection yields nothing to snipe rather
than an error; on a non-empty list of length `n` the index is clamped into
`[1, n]`, the element at position `n - clamped` is returned (so selection
never fails for any integer index), an index at most 1 selects the most
recent (last) history, and an index at least `n` selects the oldest (first)
history. -/
theorem snipe_select_spec (l : List (List MessageState)) (index : Int) :
    (l = [] → snipe_select l index = none)
    ∧ (l ≠ [] →
        (1 ≤ max 1 (min index (l.length : Int))
          ∧ max 1 (min index (l.length : Int)) ≤ (l.length : Int))
        ∧ snipe_select l index
            = l.get? (l.length - (max 1 (min index (l.length : Int))).toNat)
        ∧ (snipe_select l index).isSome
        ∧ (index ≤ 1 → snipe_select l index = l.getLast?)
        ∧ ((l.length : Int) ≤ index → snipe_select l index = l.head?)) := by
  constructor
  · intro h
    simp [snipe_select, h]
  · intro hne
    have hlen : 0 < l.length := List.length_pos.mpr hne
    set c : Int := max 1 (min index (l.length : Int)) with hc
    have hc1 : 1 ≤ c := le_max_left _ _
    have hcn : c ≤ (l.length : Int) := by
      apply max_le
      · omega
      · exact min_le_right _ _
    refine ⟨⟨hc1, hcn⟩, ?_, ?_, ?_, ?_⟩
    · simp only [snipe_select, List.isEmpty_eq_false_iff_exists_mem]
      rw [if_neg (by simp [List.isEmpty_iff, hne])]
      simp only [pyIndex]
      rw [if_pos (by omega), if_neg (by push_neg; omega)]
      congr 1
      omega
    · have hstep : snipe_select l index
          = l.get? (l.length - (max 1 (min index (l.length : Int))).toNat) := by
        simp only [snipe_select]
        rw [if_neg (by simp [List.isEmpty_iff, hne])]
        simp only [pyIndex]
        rw [if_pos (by omega), if_neg (by push_neg; omega)]
        congr 1
        omega
      rw [hstep]
      have hlt : l.length - c.toNat < l.length := by omega
      rw [List.get?_eq_get hlt]
      simp
    · intro hidx
      have hceq : c = 1 := by
        have : min index (l.length : Int) ≤ 1 := le_trans (min_le_left _ _) hidx
        omega
      simp only [snipe_select]
      rw [if_neg (by simp [List.isEmpty_iff, hne])]
      simp only [pyIndex]
      rw [← hc, hceq]
      rw [if_pos (by omega), if_neg (by push_neg; omega)]
      rw [List.getLast?_eq_get?]
      congr 1
      omega
    · intro hidx
      have hceq : c = (l.length : Int) := by
        have : min index (l.length : Int) = (l.length : Int) := min_eq_right hidx
        rw [hc, this]
        omega
      simp only [snipe_select]
      rw [if_neg (by simp [List.isEmpty_iff, hne])]
      simp only [pyIndex]
      rw [← hc, hceq]
      rw [if_pos (by omega), if_neg (by push_neg; omega)]
      rw [← List.get?_zero]
      congr 1
      omega

/-- C8: for `max_length ≥ 3`, `strip_with_dots` returns the string unchanged
when its length is at most `max_length`, otherwise the first
`max_length - 3` characters followed by `"..."`; in both cases the result is
at most `max_length` characters long. -/
theorem strip_with_dots_spec (s : List Char) (max_length : Int)
    (h3 : 3 ≤ max_length) :
    ((s.length : Int) ≤ max_length → strip_with_dots s max_length = s)
    ∧ (max_length < (s.length : Int) →
        strip_with_dots s max_length
          = s.take (max_length - 3).toNat ++ ['.', '.', '.'])
    ∧ ((strip_with_dots s max_length).length : Int) ≤ max_length := by
  refine ⟨?_, ?_, ?_⟩
  · intro hfit
    simp [strip_with_dots, hfit]
  · intro hlong
    simp only [strip_with_dots]
    rw [if_neg (by omega)]
    simp only [pyTake]
    rw [if_neg (by omega)]
  · by_cases hfit : (s.length : Int) ≤ max_length
    · simp [strip_with_dots, hfit]
    · simp only [strip_with_dots]
      rw [if_neg hfit]
      simp only [pyTake]
      rw [if_neg (by omega)]
      simp only [List.length_append, List.length_take, List.length_cons,
        List.length_nil]
      push_cast
      omega

/-- C9: with `allow_self_snipe` unset, `can_snipe_message` accepts every
message; with it set, a message is rejected exactly when it is the bot's own
or, under webhook response mode, was sent by the accepted snipe webhook — so
exclusion from tracking happens only when `allow_self_snipe` is set. -/
theorem can_snipe_message_spec (response_type : ResponseType) (botUser : Nat)
    (fetchWebhookName : Nat → String) (message : Message) :
    can_snipe_message false response_type botUser fetchWebhookName message = true
    ∧ (can_snipe_message true response_type botUser fetchWebhookName message = false
        ↔ (message.author = botUser
            ∨ ∃ wid, message.webhookId = some wid
                ∧ response_type = ResponseType.WEBHOOK
                ∧ fetchWebhookName wid = ACCEPTED_WEBHOOK_NAME)) := by
  constructor
  · rfl
  · simp only [can_snipe_message, if_true]
    by_cases hb : message.author = botUser
    · simp [hb]
    · rw [if_neg (by simpa using hb)]
      cases hw : message.webhookId with
      | none => simp [hb, hw]
      | some wid =>
        cases response_type with
        | EMBED => simp [hb]
        | WEBHOOK =>
          by_cases hn : fetchWebhookName wid = ACCEPTED_WEBHOOK_NAME
          · simp [hb, hn]
          · simp [hb, hn]

/-- C3: on a well-formed store, one pruner tick completes and leaves exactly
the entries whose latest state was unexpired at zero leniency at scan time:
every remaining entry is unexpired and every removed entry was expired, so
no unexpired entry is removed. -/
theorem prune_message_cache_spec (maxAge now : Int) (store : Store)
    (hwf : StoreWF store) :
    ∃ store2, prune_message_cache maxAge now store = some store2
      ∧ store2 = store.filter
          (fun e => !is_state_expired maxAge now (lastState e.2) 0)
      ∧ (∀ e ∈ store2, is_state_expired maxAge now (lastState e.2) 0 = false)
      ∧ ∀ e ∈ store, e ∉ store2 →
          is_state_expired maxAge now (lastState e.2) 0 = true := by
  have h := pruneScan_eq_filter maxAge now store [] (by simpa using hwf.1) hwf.2
  simp only [List.nil_append] at h
  refine ⟨_, h, rfl, ?_, ?_⟩
  · intro e he
    have := (List.mem_filter.mp he).2
    simpa using this
  · intro e he hnot
    by_contra hcontr
    exact hnot (List.mem_filter.mpr ⟨he, by simpa using hcontr⟩)

/-- C3 witness: a concrete tick over a store holding one expired and one
live entry keeps exactly the live one. -/
theorem prune_message_cache_spec_witness :
    StoreWF [(1, [sampleState 1 5 0]), (2, [sampleState 2 5 999])]
    ∧ ∃ store2,
        prune_message_cache 60 1000
          [(1, [sampleState 1 5 0]), (2, [sampleState 2 5 999])] = some store2
        ∧ store2 = [(1, [sampleState 1 5 0]), (2, [sampleState 2 5 999])].filter
            (fun e => !is_state_expired 60 1000 (lastState e.2) 0)
        ∧ (∀ e ∈ store2, is_state_expired 60 1000 (lastState e.2) 0 = false)
        ∧ ∀ e ∈ [(1, [sampleState 1 5 0]), (2, [sampleState 2 5 999])],
            e ∉ store2 → is_state_expired 60 1000 (lastState e.2) 0 = true :=
  ⟨by constructor <;> decide,
   prune_message_cache_spec 60 1000 _ (by constructor <;> decide)⟩

/-- C4 counterexample: removal is not no-op-safe in every removal path. The
pruner's `pop` has no default: popping an absent id raises `KeyError`
(`none`), and a pruner scan that meets an absent id aborts without looking
at the remaining ids — here id 2, still expired, is never examined. -/
theorem pruner_pop_absent_id_raises :
    popStore [(2, [sampleState 2 5 0])] 1 = none
    ∧ pruneScan 60 1000 [(1, [sampleState 1 5 0]), (2, [sampleState 2 5 0])]
        [(2, [sampleState 2 5 0])] = none := by
  constructor <;> decide

/-- C4 amended: the snipe removal path (pop with `KeyError` suppressed) is
idempotent and no-op-safe — absent ids are left alone without error and a
second removal is a no-op — while the pruner's `pop` raises (`none`) on an
absent id; a full pruner tick on a well-formed store never meets an absent
id, so it completes. -/
theorem removal_paths_spec (store : Store) (id : MessageID) (maxAge now : Int)
    (hwf : StoreWF store) :
    (lookupStore store id = none → popStore store id = none)
    ∧ (lookupStore store id = none → snipeRemove store id = store)
    ∧ snipeRemove (snipeRemove store id) id = snipeRemove store id
    ∧ (prune_message_cache maxAge now store).isSome := by
  have habs : lookupStore store id = none →
      store.any (fun e => e.1 == id) = false := by
    intro h
    simp only [lookupStore, Option.map_eq_none', List.find?_eq_none] at h
    simp only [List.any_eq_false]
    exact h
  refine ⟨?_, ?_, ?_, ?_⟩
  · intro h
    simp [popStore, habs h]
  · intro h
    simp [snipeRemove, popStore, habs h]
  · by_cases hany : store.any (fun e => e.1 == id) = true
    · have h1 : snipeRemove store id = store.eraseP (fun e => e.1 == id) := by
        simp [snipeRemove, popStore, hany]
      rw [h1]
      have h2 : (store.eraseP (fun e => e.1 == id)).any (fun e => e.1 == id)
          = false := any_eraseP_eq_false store id hwf.1
      simp [snipeRemove, popStore, h2]
    · have h1 : snipeRemove store id = store := by
        simp [snipeRemove, popStore, Bool.eq_false_iff.mpr hany]
      rw [h1, h1]
  · have h := pruneScan_eq_filter maxAge now store [] (by simpa using hwf.1)
      hwf.2
    simp only [List.nil_append] at h
    simp [prune_message_cache, h]

/-- C4 witness: a concrete store with one entry, probed at an absent id. -/
theorem removal_paths_spec_witness :
    StoreWF [(2, [sampleState 2 5 0])]
    ∧ ((lookupStore [(2, [sampleState 2 5 0])] 1 = none →
          popStore [(2, [sampleState 2 5 0])] 1 = none)
        ∧ (lookupStore [(2, [sampleState 2 5 0])] 1 = none →
            snipeRemove [(2, [sampleState 2 5 0])] 1 = [(2, [sampleState 2 5 0])])
        ∧ snipeRemove (snipeRemove [(2, [sampleState 2 5 0])] 1) 1
            = snipeRemove [(2, [sampleState 2 5 0])] 1
        ∧ (prune_message_cache 60 1000 [(2, [sampleState 2 5 0])]).isSome) :=
  ⟨by constructor <;> decide,
   removal_paths_spec [(2, [sampleState 2 5 0])] 1 60 1000
     (by constructor <;> decide)⟩

/-- Helper: recording a state for an id appends it to that id's history,
creating the history when absent. -/
theorem lookup_record (store : Store) (i : MessageID) (s : MessageState) :
    lookupStore (record store i s) i
      = some ((lookupStore store i).getD [] ++ [s]) := by
  induction store with
  | nil => simp [record, lookupStore]
  | cons head rest ih =>
    obtain ⟨k, h⟩ := head
    by_cases hk : k = i
    · subst hk
      simp [record, lookupStore, List.find?_cons_of_pos]
    · simp only [record, beq_iff_eq, hk, if_false]
      rw [lookupStore, List.find?_cons_of_neg _ (by simpa using hk)]
      rw [lookupStore, List.find?_cons_of_neg _ (by simpa using hk)] at *
      exact ih

/-- Helper: folding a run of passing edit/delete events for one id extends
that id's history by the recorded states, in call order. -/
theorem foldl_applyEvent_lookup (allow_self : Bool)
    (response_type : ResponseType) (botUser : Nat)
    (fetchWebhookName : Nat → String) (i : MessageID) (evs : List MsgEvent) :
    ∀ (store : Store),
      (∀ ev ∈ evs, (eventMessage ev).id = i
        ∧ can_snipe_message allow_self response_type botUser fetchWebhookName
            (eventMessage ev) = true) →
      (lookupStore
        (evs.foldl
          (applyEvent true true allow_self response_type botUser fetchWebhookName)
          store) i).getD []
      = (lookupStore store i).getD [] ++ evs.map eventState := by
  induction evs with
  | nil =>
    intro store _
    simp
  | cons ev rest ih =>
    intro store hpass
    have hid : (eventMessage ev).id = i := (hpass ev (by simp)).1
    have hcan : can_snipe_message allow_self response_type botUser
        fetchWebhookName (eventMessage ev) = true := (hpass ev (by simp)).2
    have hstep :
        applyEvent true true allow_self response_type botUser fetchWebhookName
          store ev = record store i (eventState ev) := by
      cases ev with
      | deleteEv m now =>
        simp only [eventMessage] at hid hcan
        simp [applyEvent, hcan, eventState, hid]
      | editEv m now =>
        simp only [eventMessage] at hid hcan
        simp [applyEvent, hcan, eventState, hid]
    rw [List.foldl_cons, hstep,
      ih _ (fun e he => hpass e (by simp [he]))]
    rw [lookup_record]
    simp

/-- C6: starting from a store not tracking id `i`, a run of delete/edit
events for `i` that all pass the enabled-setting and snipeability checks
leaves `i` with a history that holds exactly the recorded states in call
order — in particular its length equals the number of calls — the entry
being created by the first call. -/
theorem record_calls_history (allow_self : Bool) (response_type : ResponseType)
    (botUser : Nat) (fetchWebhookName : Nat → String) (i : MessageID)
    (evs : List MsgEvent) (store : Store)
    (habsent : lookupStore store i = none)
    (hpass : ∀ ev ∈ evs, (eventMessage ev).id = i
      ∧ can_snipe_message allow_self response_type botUser fetchWebhookName
          (eventMessage ev) = true) :
    (lookupStore
      (evs.foldl
        (applyEvent true true allow_self response_type botUser fetchWebhookName)
        store) i).getD []
      = evs.map eventState
    ∧ ((lookupStore
        (evs.foldl
          (applyEvent true true allow_self response_type botUser fetchWebhookName)
          store) i).getD []).length = evs.length := by
  have h := foldl_applyEvent_lookup allow_self response_type botUser
    fetchWebhookName i evs store hpass
  rw [habsent] at h
  simp only [Option.getD_none, List.nil_append] at h
  exact ⟨h, by rw [h]; simp⟩

/-- C6 witness: a delete followed by an edit of message 5, recorded into an
empty cache, yields a two-state history in call order. -/
theorem record_calls_history_witness :
    lookupStore [] 5 = none
    ∧ (∀ ev ∈ [MsgEvent.deleteEv (sampleMessage 5 3) 10,
          MsgEvent.editEv (sampleMessage 5 3) 20],
        (eventMessage ev).id = 5
        ∧ can_snipe_message false ResponseType.EMBED 9 (fun _ => "w")
            (eventMessage ev) = true)
    ∧ ((lookupStore
        ([MsgEvent.deleteEv (sampleMessage 5 3) 10,
          MsgEvent.editEv (sampleMessage 5 3) 20].foldl
          (applyEvent true true false ResponseType.EMBED 9 (fun _ => "w")) []) 5).getD []
        = [MsgEvent.deleteEv (sampleMessage 5 3) 10,
           MsgEvent.editEv (sampleMessage 5 3) 20].map eventState
      ∧ ((lookupStore
          ([MsgEvent.deleteEv (sampleMessage 5 3) 10,
            MsgEvent.editEv (sampleMessage 5 3) 20].foldl
            (applyEvent true true false ResponseType.EMBED 9 (fun _ => "w")) []) 5).getD
          []).length
        = [MsgEvent.deleteEv (sampleMessage 5 3) 10,
           MsgEvent.editEv (sampleMessage 5 3) 20].length) :=
  ⟨rfl, by decide,
   record_calls_history false ResponseType.EMBED 9 (fun _ => "w") 5
     [MsgEvent.deleteEv (sampleMessage 5 3) 10,
      MsgEvent.editEv (sampleMessage 5 3) 20] [] rfl (by decide)⟩

/-- C7: the snipe command removes the selected id only after the rendering
handler has returned: when the handler raises, the command ends in
`renderFailed` with the store exactly as it was (no removal, no partial
mutation); when it ends in `success`, the store is the original store with
the single suppressed-`KeyError` pop of the selected entry's id applied. -/
theorem snipe_removal_contract (ae ad ig : Bool) (maxAge now : Int)
    (channel : Nat) (store : Store) (index : Int)
    (render : List MessageState → Except Unit Unit) :
    ((snipe ae ad ig maxAge now channel store index render).2
        = SnipeOutcome.renderFailed →
      (snipe ae ad ig maxAge now channel store index render).1 = store)
    ∧ ((snipe ae ad ig maxAge now channel store index render).2
        = SnipeOutcome.success →
      ∃ sniped,
        snipe_select (get_tracked_states_in_channel maxAge now channel store)
            index = some sniped
        ∧ render sniped = Except.ok ()
        ∧ (snipe ae ad ig maxAge now channel store index render).1
            = snipeRemove store (lastState sniped).message.id) := by
  by_cases h1 : (!ae && !ad) = true
  · simp [snipe, h1]
  · by_cases h2 : ig = true
    · by_cases h3 : (get_tracked_states_in_channel maxAge now channel
          store).isEmpty = true
      · simp [snipe, h1, h2, h3]
      · cases hsel : pyIndex (get_tracked_states_in_channel maxAge now channel store)
            (-(max 1 (min index
              ((get_tracked_states_in_channel maxAge now channel store).length : Int)))) with
        | none => simp [snipe, h1, h2, h3, hsel]
        | some sniped =>
          cases hr : render sniped with
          | error e => simp [snipe, h1, h2, h3, hsel, hr]
          | ok u =>
            constructor
            · intro hout
              exfalso
              simp [snipe, h1, h2, h3, hsel, hr] at hout
            · intro _
              refine ⟨sniped, ?_, ?_, ?_⟩
              · simp [snipe_select, h3, hsel]
              · cases u
                exact hr
              · simp [snipe, h1, h2, h3, hsel, hr]
    · simp only [Bool.not_eq_true] at h2
      simp [snipe, h1, h2]

/-- C7 witness: with an everywhere-failing renderer and a concrete store
the contract instantiates directly. -/
theorem snipe_removal_contract_witness :
    ((snipe true true true 60 1000 5 [(1, [sampleState 1 5 999])] 1
        (fun _ => Except.error ())).2 = SnipeOutcome.renderFailed →
      (snipe true true true 60 1000 5 [(1, [sampleState 1 5 999])] 1
        (fun _ => Except.error ())).1 = [(1, [sampleState 1 5 999])])
    ∧ ((snipe true true true 60 1000 5 [(1, [sampleState 1 5 999])] 1
        (fun _ => Except.error ())).2 = SnipeOutcome.success →
      ∃ sniped,
        snipe_select
            (get_tracked_states_in_channel 60 1000 5 [(1, [sampleState 1 5 999])])
            1 = some sniped
        ∧ (fun (_ : List MessageState) => (Except.error () : Except Unit Unit)) sniped
            = Except.ok ()
        ∧ (snipe true true true 60 1000 5 [(1, [sampleState 1 5 999])] 1
            (fun _ => Except.error ())).1
          = snipeRemove [(1, [sampleState 1 5 999])]
              (lastState sniped).message.id) :=
  snipe_removal_contract true true true 60 1000 5 [(1, [sampleState 1 5 999])] 1
    (fun _ => Except.error ())

/-- C2 witness: the selection contract instantiated at a concrete two-entry
match list. -/
theorem snipe_select_spec_witness :
    (([[sampleState 1 5 10], [sampleState 2 5 20]]
        : List (List MessageState)) = [] →
      snipe_select [[sampleState 1 5 10], [sampleState 2 5 20]] 1 = none)
    ∧ (([[sampleState 1 5 10], [sampleState 2 5 20]]
          : List (List MessageState)) ≠ [] →
        (1 ≤ max 1 (min 1
            (([[sampleState 1 5 10], [sampleState 2 5 20]]
              : List (List MessageState)).length : Int))
          ∧ max 1 (min 1
              (([[sampleState 1 5 10], [sampleState 2 5 20]]
                : List (List MessageState)).length : Int))
            ≤ (([[sampleState 1 5 10], [sampleState 2 5 20]]
              : List (List MessageState)).length : Int))
        ∧ snipe_select [[sampleState 1 5 10], [sampleState 2 5 20]] 1
            = [[sampleState 1 5 10], [sampleState 2 5 20]].get?
              (([[sampleState 1 5 10], [sampleState 2 5 20]]
                : List (List MessageState)).length
                - (max 1 (min 1
                  (([[sampleState 1 5 10], [sampleState 2 5 20]]
                    : List (List MessageState)).length : Int))).toNat)
        ∧ (snipe_select [[sampleState 1 5 10], [sampleState 2 5 20]] 1).isSome
        ∧ ((1 : Int) ≤ 1 →
            snipe_select [[sampleState 1 5 10], [sampleState 2 5 20]] 1
              = [[sampleState 1 5 10], [sampleState 2 5 20]].getLast?)
        ∧ ((([[sampleState 1 5 10], [sampleState 2 5 20]]
              : List (List MessageState)).length : Int) ≤ 1 →
            snipe_select [[sampleState 1 5 10], [sampleState 2 5 20]] 1
              = [[sampleState 1 5 10], [sampleState 2 5 20]].head?)) :=
  snipe_select_spec [[sampleState 1 5 10], [sampleState 2 5 20]] 1

/-- C8 witness: a six-character string cut down to five characters. -/
theorem strip_with_dots_spec_witness :
    (3 : Int) ≤ 5
    ∧ ((((['a', 'b', 'c', 'd', 'e', 'f'] : List Char).length : Int) ≤ 5 →
        strip_with_dots ['a', 'b', 'c', 'd', 'e', 'f'] 5
          = ['a', 'b', 'c', 'd', 'e', 'f'])
      ∧ ((5 : Int) < ((['a', 'b', 'c', 'd', 'e', 'f'] : List Char).length : Int) →
          strip_with_dots ['a', 'b', 'c', 'd', 'e', 'f'] 5
            = (['a', 'b', 'c', 'd', 'e', 'f'] : List Char).take ((5 : Int) - 3).toNat
              ++ ['.', '.', '.'])
      ∧ ((strip_with_dots ['a', 'b', 'c', 'd', 'e', 'f'] 5).length : Int) ≤ 5) :=
  ⟨by decide, strip_with_dots_spec ['a', 'b', 'c', 'd', 'e', 'f'] 5 (by decide)⟩

/-- C10: under webhook response mode, when the webhook response handler
raises any exception, `use_handler` does not propagate it: it returns the
embed response handler's result instead. -/
theorem use_handler_webhook_fallback {ε α : Type} (e : ε)
    (embedResult : Except ε α) :
    use_handler ResponseType.WEBHOOK embedResult (Except.error e) = embedResult :=
  rfl

end BreadAssassin
